import Mathlib

/-!
Verification of the appointment-scheduling layer
(`src/codigo/routers/appointments.py`) of backend-lunysse.

The router's five endpoints are embedded as pure functions over an
explicit database state.  SQLAlchemy queries become list searches
(`List.find?` / `List.filter`), commits become functional updates of the
state, and `HTTPException` becomes an `Except` error value.  E-mail
dispatch is recorded as a list of notification values so that the
notification conditions are observable.
-/

namespace Lunysse

/-- `AppointmentStatus` from `models.models`: AGENDADO (= SCHEDULED),
CANCELADO (= CANCELED). -/
inductive AppointmentStatus where
  | AGENDADO
  | CANCELADO
deriving DecidableEq, Repr

/-- `UserType` from `models.models`; the router only discriminates on
PSICOLOGO (= practitioner). -/
inductive UserType where
  | PSICOLOGO
  | PACIENTE
deriving DecidableEq, Repr

/-- The `Appointment` row: id (storage-generated), patient_id,
psychologist_id, date, time, status. -/
structure Appointment where
  id : Nat
  patient_id : Nat
  psychologist_id : Nat
  date : String
  time : String
  status : AppointmentStatus
deriving DecidableEq, Repr

/-- The `User` row: id, name, email and the type discriminator. -/
structure User where
  id : Nat
  name : String
  email : String
  type : UserType
deriving DecidableEq, Repr

/-- The `Patient` row: id, name, email. -/
structure Patient where
  id : Nat
  name : String
  email : String
deriving DecidableEq, Repr

/-- Persistent storage visible to the router: the three tables, plus the
id counter the store uses to generate primary keys on insert. -/
structure DB where
  appointments : List Appointment
  patients : List Patient
  users : List User
  nextId : Nat
deriving DecidableEq, Repr

/-- `AppointmentCreate` from `schemas.schemas`: the creation payload is
the appointment minus the generated fields, i.e. patient_id,
psychologist_id, date, time (`Appointment(**appointment_data.dict(),
status=AGENDADO)` shows the payload holds exactly the non-generated,
non-status columns). -/
structure AppointmentCreate where
  patient_id : Nat
  psychologist_id : Nat
  date : String
  time : String
deriving DecidableEq, Repr

/-- Modelled from the spec: `AppointmentUpdate` from `schemas.schemas` is
not under `src/`.  The spec describes the update payload as "any subset
of mutable fields" and the lifecycle as "mutated (date/time/status
fields) by update", so the payload has optional date, time and status;
an omitted field is absent from `dict(exclude_unset=True)`. -/
structure AppointmentUpdate where
  date : Option String
  time : Option String
  status : Option AppointmentStatus
deriving DecidableEq, Repr

/-- The three `HTTPException`s the router raises, with their detail
strings. -/
inductive ApiError where
  | conflict (detail : String)
  | notFound (detail : String)
  | forbidden (detail : String)
deriving DecidableEq, Repr

/-- The HTTP status code each raised error carries
(`HTTP_400_BAD_REQUEST`, `HTTP_404_NOT_FOUND`, `HTTP_403_FORBIDDEN`). -/
def ApiError.httpStatus : ApiError → Nat
  | .conflict _ => 400
  | .notFound _ => 404
  | .forbidden _ => 403

/-- One outbound e-mail, as dispatched by `services.email_service`. -/
inductive Notification where
  | newAppointment (client_email client_name date time : String)
  | rescheduled (client_email client_name date time : String)
  | canceled (client_email client_name psychologist_name : String)
deriving DecidableEq, Repr

/-- `db.query(Appointment).filter(Appointment.id == i).first()`. -/
def DB.getAppt (db : DB) (i : Nat) : Option Appointment :=
  db.appointments.find? (fun a => a.id == i)

/-- `db.query(Patient).filter(Patient.id == i).first()`. -/
def DB.getPatient (db : DB) (i : Nat) : Option Patient :=
  db.patients.find? (fun p => p.id == i)

/-- `db.query(User).filter(User.id == i).first()`. -/
def DB.getUser (db : DB) (i : Nat) : Option User :=
  db.users.find? (fun u => u.id == i)

/-- Committing a mutation of the row found by
`filter(Appointment.id == aid).first()`: the first stored row whose id is
`aid` is replaced by `v`; every other row is untouched. -/
def setFirst : List Appointment → Nat → Appointment → List Appointment
  | [], _, _ => []
  | a :: rest, aid, v =>
      if a.id == aid then v :: rest else a :: setFirst rest aid v

/-- `create_appointment` (POST /appointments/): conflict-check against an
existing AGENDADO row with the same psychologist_id, date and time; on
conflict raise 400 "Horário não disponível"; otherwise insert a new row
with status AGENDADO, then notify the patient found by patient_id (the
notification is skipped when the lookup finds none).  Returns the
persisted appointment, the new store and the dispatched notifications. -/
def create_appointment (current_user : User) (appointment_data : AppointmentCreate)
    (db : DB) : Except ApiError (Appointment × DB × List Notification) :=
  let existing := db.appointments.find? (fun a =>
    a.psychologist_id == appointment_data.psychologist_id &&
    a.date == appointment_data.date &&
    a.time == appointment_data.time &&
    a.status == AppointmentStatus.AGENDADO)
  match existing with
  | some _ => .error (.conflict "Horário não disponível")
  | none =>
      let db_appointment : Appointment :=
        { id := db.nextId
          patient_id := appointment_data.patient_id
          psychologist_id := appointment_data.psychologist_id
          date := appointment_data.date
          time := appointment_data.time
          status := AppointmentStatus.AGENDADO }
      let db' : DB := { db with
        appointments := db.appointments ++ [db_appointment]
        nextId := db.nextId + 1 }
      let notifs :=
        match db'.getPatient db_appointment.patient_id with
        | some patient =>
            [Notification.newAppointment patient.email patient.name
              db_appointment.date db_appointment.time]
        | none => []
      .ok (db_appointment, db', notifs)

/-- The `setattr` loop of `update_appointment`: each field present in
`update_data.dict(exclude_unset=True)` overwrites the row's field; an
absent field leaves the row's field untouched. -/
def applyUpdate (u : AppointmentUpdate) (a : Appointment) : Appointment :=
  let a1 := match u.date with
    | some d => { a with date := d }
    | none => a
  let a2 := match u.time with
    | some t => { a1 with time := t }
    | none => a1
  match u.status with
  | some s => { a2 with status := s }
  | none => a2

/-- `update_appointment` (PUT /appointments/\x7bappointment_id\x7d):
404 when the id resolves to no row; 403 when the caller is a PSICOLOGO
and not the row's psychologist; otherwise apply the provided fields,
commit, and dispatch a reschedule notification exactly when the new
date or time differs from the old and the patient lookup succeeds. -/
def update_appointment (appointment_id : Nat) (update_data : AppointmentUpdate)
    (current_user : User) (db : DB) :
    Except ApiError (Appointment × DB × List Notification) :=
  match db.getAppt appointment_id with
  | none => .error (.notFound "Agendamento não encontrado")
  | some appointment =>
      if current_user.type == UserType.PSICOLOGO
          && appointment.psychologist_id != current_user.id then
        .error (.forbidden "Sem permissão para alterar este agendamento")
      else
        let old_date := appointment.date
        let old_time := appointment.time
        let updated := applyUpdate update_data appointment
        let db' : DB := { db with
          appointments := setFirst db.appointments appointment_id updated }
        let notifs :=
          if updated.date != old_date || updated.time != old_time then
            match db'.getPatient updated.patient_id with
            | some patient =>
                [Notification.rescheduled patient.email patient.name
                  updated.date updated.time]
            | none => []
          else []
        .ok (updated, db', notifs)

/-- `cancel_appointment` (DELETE /appointments/\x7bappointment_id\x7d):
404 when the id resolves to no row; otherwise set the row's status to
CANCELADO, commit, notify when both the patient and the psychologist
lookups succeed, and return the static success message. -/
def cancel_appointment (appointment_id : Nat) (current_user : User) (db : DB) :
    Except ApiError (String × DB × List Notification) :=
  match db.getAppt appointment_id with
  | none => .error (.notFound "Agendamento não encontrado")
  | some appointment =>
      let updated := { appointment with status := AppointmentStatus.CANCELADO }
      let db' : DB := { db with
        appointments := setFirst db.appointments appointment_id updated }
      let notifs :=
        match db'.getPatient appointment.patient_id,
              db'.getUser appointment.psychologist_id with
        | some patient, some psychologist =>
            [Notification.canceled patient.email patient.name psychologist.name]
        | _, _ => []
      .ok ("Agendamento cancelado com sucesso", db', notifs)

/-- The fixed ordered list of daily slot labels from
`get_available_slots`. -/
def all_slots : List String :=
  ["09:00", "10:00", "11:00", "14:00", "15:00", "16:00", "17:00"]

/-- The time values of the AGENDADO rows matching the date and
psychologist (`db.query(Appointment.time).filter(...)`). -/
def occupied_times (date : String) (psychologist_id : Nat) (db : DB) :
    List String :=
  (db.appointments.filter (fun a =>
    a.date == date &&
    a.psychologist_id == psychologist_id &&
    a.status == AppointmentStatus.AGENDADO)).map (fun a => a.time)

/-- `get_available_slots` (GET /appointments/available-slots): the fixed
slot list minus the occupied times, in the fixed list's order. -/
def get_available_slots (date : String) (psychologist_id : Nat) (db : DB) :
    List String :=
  all_slots.filter (fun slot => !(occupied_times date psychologist_id db).contains slot)

end Lunysse

namespace Lunysse

/-! Helper lemmas about the storage primitives. -/

/-- Membership in the occupied-times query: a time is occupied exactly
when some stored AGENDADO row matches the date, the psychologist and
that time. -/
theorem mem_occupied_times (date : String) (pid : Nat) (db : DB) (s : String) :
    s ∈ occupied_times date pid db ↔
      ∃ a ∈ db.appointments, a.date = date ∧ a.psychologist_id = pid ∧
        a.status = AppointmentStatus.AGENDADO ∧ a.time = s := by
  simp [occupied_times, List.mem_map, List.mem_filter, Bool.and_eq_true, beq_iff_eq]
  tauto

/-- Membership in the available-slots result: a slot is returned exactly
when it is one of the fixed labels and no AGENDADO row occupies it. -/
theorem mem_available_slots (date : String) (pid : Nat) (db : DB) (s : String) :
    s ∈ get_available_slots date pid db ↔
      s ∈ all_slots ∧ ¬ ∃ a ∈ db.appointments, a.date = date ∧ a.psychologist_id = pid ∧
        a.status = AppointmentStatus.AGENDADO ∧ a.time = s := by
  rw [get_available_slots, List.mem_filter]
  simp [← mem_occupied_times date pid db s, List.elem_iff]

/-- Committing a row mutation leaves lookups deterministic: looking up
the mutated id finds the new value, any other id is untouched. -/
theorem setFirst_find?_id (l : List Appointment) (aid : Nat) (v : Appointment)
    (hv : v.id = aid) (i : Nat) :
    (setFirst l aid v).find? (fun a => a.id == i) =
      if i = aid then ((l.find? (fun a => a.id == i)).map (fun _ => v))
      else l.find? (fun a => a.id == i) := by
  induction l with
  | nil =>
    simp [setFirst]
  | cons c rest ih =>
    by_cases hc : c.id = aid
    · rw [setFirst, if_pos (by simp [hc])]
      by_cases hi : i = aid
      · subst hi
        rw [if_pos rfl, List.find?_cons_of_pos _ (by simp [hv]),
          List.find?_cons_of_pos _ (by simp [hc])]
        rfl
      · rw [if_neg hi, List.find?_cons_of_neg _ (by simp [hv, Ne.symm]; omega),
          List.find?_cons_of_neg _ (by simp; omega)]
    · rw [setFirst, if_neg (by simp [hc])]
      by_cases hci : c.id = i
      · have : i ≠ aid := by omega
        rw [if_neg this, List.find?_cons_of_pos _ (by simp [hci]),
          List.find?_cons_of_pos _ (by simp [hci])]
      · rw [List.find?_cons_of_neg _ (by simp [hci]),
          List.find?_cons_of_neg _ (by simp [hci]), ih]

/-- When stored ids are unique, every row of the committed store is the
new value or an untouched row with a different id. -/
theorem mem_setFirst (l : List Appointment) (aid : Nat) (v : Appointment) (x : Appointment)
    (hnd : (l.map (fun a => a.id)).Nodup) (hx : x ∈ setFirst l aid v) :
    x = v ∨ (x ∈ l ∧ x.id ≠ aid) := by
  induction l with
  | nil =>
    simp [setFirst] at hx
  | cons c rest ih =>
    rw [List.map_cons, List.nodup_cons] at hnd
    by_cases hc : c.id = aid
    · rw [setFirst, if_pos (by simp [hc])] at hx
      rcases List.mem_cons.1 hx with h | h
      · exact Or.inl h
      · refine Or.inr ⟨List.mem_cons_of_mem _ h, ?_⟩
        intro hxa
        exact hnd.1 (by rw [hc, ← hxa]; exact List.mem_map_of_mem _ h)
    · rw [setFirst, if_neg (by simp [hc])] at hx
      rcases List.mem_cons.1 hx with h | h
      · subst h
        exact Or.inr ⟨List.mem_cons_self _ _, hc⟩
      · rcases ih hnd.2 h with h1 | ⟨h1, h2⟩
        · exact Or.inl h1
        · exact Or.inr ⟨List.mem_cons_of_mem _ h1, h2⟩

/-- The setattr loop only rewrites the fields present in the payload:
id, patient_id and psychologist_id are never touched, and date, time and
status take the payload value when set, keeping the old one otherwise. -/
theorem applyUpdate_fields (u : AppointmentUpdate) (a : Appointment) :
    (applyUpdate u a).id = a.id ∧
    (applyUpdate u a).patient_id = a.patient_id ∧
    (applyUpdate u a).psychologist_id = a.psychologist_id ∧
    (applyUpdate u a).date = u.date.getD a.date ∧
    (applyUpdate u a).time = u.time.getD a.time ∧
    (applyUpdate u a).status = u.status.getD a.status := by
  rcases u with ⟨d, t, s⟩
  cases d <;> cases t <;> cases s <;> simp [applyUpdate]

end Lunysse

namespace Lunysse

/-! Claim theorems. -/

/-- C1: create raises its (unique) CONFLICT error, which carries HTTP
status 400, exactly when an AGENDADO row with the same psychologist_id,
date and time is already stored; otherwise it inserts a new AGENDADO row
carrying the payload's fields and returns that persisted row. -/
theorem create_appointment_conflict_iff (cu : User) (d : AppointmentCreate) (db : DB) :
    ((∃ e, create_appointment cu d db = .error e) ↔
      ∃ a ∈ db.appointments, a.psychologist_id = d.psychologist_id ∧ a.date = d.date ∧
        a.time = d.time ∧ a.status = AppointmentStatus.AGENDADO) ∧
    (∀ e, create_appointment cu d db = .error e →
      e = ApiError.conflict "Horário não disponível" ∧ e.httpStatus = 400) ∧
    ((¬ ∃ a ∈ db.appointments, a.psychologist_id = d.psychologist_id ∧ a.date = d.date ∧
        a.time = d.time ∧ a.status = AppointmentStatus.AGENDADO) →
      ∃ r db' notifs, create_appointment cu d db = .ok (r, db', notifs) ∧
        r.status = AppointmentStatus.AGENDADO ∧
        r.patient_id = d.patient_id ∧ r.psychologist_id = d.psychologist_id ∧
        r.date = d.date ∧ r.time = d.time ∧
        db'.appointments = db.appointments ++ [r]) := by
  have hiff : (db.appointments.find? (fun a =>
      a.psychologist_id == d.psychologist_id &&
      a.date == d.date &&
      a.time == d.time &&
      a.status == AppointmentStatus.AGENDADO)).isSome ↔
      ∃ a ∈ db.appointments, a.psychologist_id = d.psychologist_id ∧ a.date = d.date ∧
        a.time = d.time ∧ a.status = AppointmentStatus.AGENDADO := by
    rw [List.find?_isSome]
    simp only [Bool.and_eq_true, beq_iff_eq, and_assoc]
  cases hf : db.appointments.find? (fun a =>
      a.psychologist_id == d.psychologist_id &&
      a.date == d.date &&
      a.time == d.time &&
      a.status == AppointmentStatus.AGENDADO) with
  | some a =>
    rw [hf] at hiff
    simp only [Option.isSome_some, true_iff] at hiff
    refine ⟨?_, ?_, ?_⟩
    · simp [create_appointment, hf, hiff]
    · intro e he
      simp [create_appointment, hf] at he
      subst he
      exact ⟨rfl, rfl⟩
    · intro hne
      exact absurd hiff hne
  | none =>
    rw [hf] at hiff
    simp only [Option.isSome_none, Bool.false_eq_true, false_iff] at hiff
    refine ⟨?_, ?_, ?_⟩
    · constructor
      · rintro ⟨e, he⟩
        simp [create_appointment, hf] at he
      · intro h
        exact absurd h hiff
    · intro e he
      simp [create_appointment, hf] at he
    · intro _
      simp only [create_appointment, hf]
      exact ⟨_, _, _, rfl, rfl, rfl, rfl, rfl, rfl, rfl⟩

/-- C1 witness: on an empty store the creation succeeds and persists an
AGENDADO row with the payload's fields. -/
theorem create_appointment_conflict_iff_witness :
    ∃ r db' notifs,
      create_appointment ⟨5, "Bia", "b@x", UserType.PACIENTE⟩
          ⟨10, 1, "2025-01-01", "09:00"⟩ ⟨[], [], [], 1⟩ = .ok (r, db', notifs) ∧
      r.status = AppointmentStatus.AGENDADO ∧
      r.patient_id = 10 ∧ r.psychologist_id = 1 ∧
      r.date = "2025-01-01" ∧ r.time = "09:00" ∧
      db'.appointments = (⟨[], [], [], 1⟩ : DB).appointments ++ [r] :=
  (create_appointment_conflict_iff ⟨5, "Bia", "b@x", UserType.PACIENTE⟩
    ⟨10, 1, "2025-01-01", "09:00"⟩ ⟨[], [], [], 1⟩).2.2 (by simp)

/-- C2: a slot label is returned by available-slots exactly when it is in
the fixed seven-label list and no AGENDADO row occupies it for that date
and psychologist; the result is a sublist of the fixed list (so the
original order is preserved); with no occupying row at all the full
fixed list is returned. -/
theorem available_slots_spec (date : String) (psychologist_id : Nat) (db : DB) :
    (∀ s, s ∈ get_available_slots date psychologist_id db ↔
      s ∈ all_slots ∧
      ¬ ∃ a ∈ db.appointments, a.date = date ∧ a.psychologist_id = psychologist_id ∧
        a.status = AppointmentStatus.AGENDADO ∧ a.time = s) ∧
    List.Sublist (get_available_slots date psychologist_id db) all_slots ∧
    ((∀ a ∈ db.appointments, ¬ (a.date = date ∧ a.psychologist_id = psychologist_id ∧
        a.status = AppointmentStatus.AGENDADO)) →
      get_available_slots date psychologist_id db = all_slots) := by
  refine ⟨fun s => mem_available_slots date psychologist_id db s,
    List.filter_sublist all_slots, ?_⟩
  intro h
  have hocc : occupied_times date psychologist_id db = [] := by
    rw [occupied_times, List.map_eq_nil_iff, List.filter_eq_nil_iff]
    intro a ha
    simp only [Bool.and_eq_true, beq_iff_eq]
    intro hcontra
    exact h a ha ⟨hcontra.1.1, hcontra.1.2, hcontra.2⟩
  rw [get_available_slots, hocc]
  simp

/-- C2 witness: an empty store yields the full seven-slot list. -/
theorem available_slots_spec_witness :
    get_available_slots "2025-01-01" 1 ⟨[], [], [], 1⟩ = all_slots :=
  (available_slots_spec "2025-01-01" 1 ⟨[], [], [], 1⟩).2.2 (by simp)

end Lunysse

namespace Lunysse

/-- Create never changes a stored row: any id resolvable before the
insert resolves to the same row after it, and a freshly created row is
AGENDADO. -/
theorem create_preserves_rows (cu : User) (d : AppointmentCreate) (db : DB)
    (r : Appointment) (db' : DB) (n : List Notification)
    (h : create_appointment cu d db = .ok (r, db', n)) :
    r.status = AppointmentStatus.AGENDADO ∧
    ∀ i a, db.getAppt i = some a → db'.getAppt i = some a := by
  simp only [create_appointment] at h
  split at h
  · cases h
  · simp only [Except.ok.injEq, Prod.mk.injEq] at h
    obtain ⟨hr, hdb, -⟩ := h
    subst hr
    subst hdb
    refine ⟨rfl, ?_⟩
    intro i a ha
    show (db.appointments ++ [_]).find? (fun x => x.id == i) = some a
    rw [List.find?_append, show db.appointments.find? (fun x => x.id == i) = some a from ha]
    rfl

/-- An update whose payload leaves the status field unset preserves the
status of every stored row, the targeted one included. -/
theorem update_preserves_status (aid : Nat) (u : AppointmentUpdate) (cu : User) (db : DB)
    (r : Appointment) (db' : DB) (n : List Notification)
    (hu : u.status = none)
    (h : update_appointment aid u cu db = .ok (r, db', n)) :
    ∀ i a a', db.getAppt i = some a → db'.getAppt i = some a' → a'.status = a.status := by
  cases hf : db.getAppt aid with
  | none =>
    simp only [update_appointment, hf] at h
    cases h
  | some a0 =>
    have hid : a0.id = aid := by simpa using List.find?_some hf
    simp only [update_appointment, hf] at h
    split at h
    · cases h
    · simp only [Except.ok.injEq, Prod.mk.injEq] at h
      obtain ⟨hr, hdb, -⟩ := h
      subst hr
      subst hdb
      have hvid : (applyUpdate u a0).id = aid := by
        rw [(applyUpdate_fields u a0).1, hid]
      intro i a a' ha ha'
      have ha'2 : (setFirst db.appointments aid (applyUpdate u a0)).find?
          (fun x => x.id == i) = some a' := ha'
      rw [setFirst_find?_id db.appointments aid (applyUpdate u a0) hvid i] at ha'2
      by_cases hi : i = aid
      · rw [if_pos hi] at ha'2
        subst hi
        rw [show db.appointments.find? (fun x => x.id == i) = some a from ha] at ha'2
        simp only [Option.map_some'] at ha'2
        have haa0 : a = a0 := Option.some.inj (ha.symm.trans hf)
        subst haa0
        have ha'3 : applyUpdate u a = a' := Option.some.inj ha'2
        rw [← ha'3, (applyUpdate_fields u a).2.2.2.2.2, hu]
        rfl
      · rw [if_neg hi] at ha'2
        rw [show db.appointments.find? (fun x => x.id == i) = some a from ha] at ha'2
        injection ha'2 with ha'2
        rw [← ha'2]

/-- Cancel moves the targeted row's status to CANCELADO and leaves every
other row's status alone: per row the status either stays equal or steps
from AGENDADO to CANCELADO. -/
theorem cancel_status_step (aid : Nat) (cu : User) (db : DB)
    (m : String) (db' : DB) (n : List Notification)
    (h : cancel_appointment aid cu db = .ok (m, db', n)) :
    ∀ i a a', db.getAppt i = some a → db'.getAppt i = some a' →
      (a'.status = a.status ∨
        (a.status = AppointmentStatus.AGENDADO ∧
          a'.status = AppointmentStatus.CANCELADO)) := by
  cases hf : db.getAppt aid with
  | none =>
    simp only [cancel_appointment, hf] at h
    cases h
  | some a0 =>
    have hid : a0.id = aid := by simpa using List.find?_some hf
    simp only [cancel_appointment, hf, Except.ok.injEq, Prod.mk.injEq] at h
    obtain ⟨-, hdb, -⟩ := h
    subst hdb
    intro i a a' ha ha'
    have ha'2 : (setFirst db.appointments aid
        { a0 with status := AppointmentStatus.CANCELADO }).find?
        (fun x => x.id == i) = some a' := ha'
    rw [setFirst_find?_id db.appointments aid
      { a0 with status := AppointmentStatus.CANCELADO } hid i] at ha'2
    by_cases hi : i = aid
    · rw [if_pos hi] at ha'2
      subst hi
      rw [show db.appointments.find? (fun x => x.id == i) = some a from ha] at ha'2
      simp only [Option.map_some'] at ha'2
      have haa0 : a = a0 := Option.some.inj (ha.symm.trans hf)
      subst haa0
      have ha'3 : { a with status := AppointmentStatus.CANCELADO } = a' :=
        Option.some.inj ha'2
      cases hs : a.status with
      | AGENDADO =>
        right
        exact ⟨rfl, by rw [← ha'3]⟩
      | CANCELADO =>
        left
        rw [← ha'3]
    · rw [if_neg hi] at ha'2
      rw [show db.appointments.find? (fun x => x.id == i) = some a from ha] at ha'2
      injection ha'2 with ha'2
      left
      rw [← ha'2]

/-- C3 counterexample: a concrete run create, cancel, then update with a
payload that sets status back, ends with the stored appointment AGENDADO
again after having been CANCELADO — the status does transition from
CANCELED back to SCHEDULED under this layer's operations. -/
theorem update_reverts_canceled_status :
    create_appointment
        ⟨5, "Bia", "b@x", UserType.PACIENTE⟩
        ⟨10, 1, "2025-01-01", "09:00"⟩
        ⟨[], [], [], 1⟩ =
      .ok (⟨1, 10, 1, "2025-01-01", "09:00", AppointmentStatus.AGENDADO⟩,
        ⟨[⟨1, 10, 1, "2025-01-01", "09:00", AppointmentStatus.AGENDADO⟩], [], [], 2⟩, []) ∧
    cancel_appointment 1 ⟨5, "Bia", "b@x", UserType.PACIENTE⟩
        ⟨[⟨1, 10, 1, "2025-01-01", "09:00", AppointmentStatus.AGENDADO⟩], [], [], 2⟩ =
      .ok ("Agendamento cancelado com sucesso",
        ⟨[⟨1, 10, 1, "2025-01-01", "09:00", AppointmentStatus.CANCELADO⟩], [], [], 2⟩, []) ∧
    update_appointment 1 ⟨none, none, some AppointmentStatus.AGENDADO⟩
        ⟨5, "Bia", "b@x", UserType.PACIENTE⟩
        ⟨[⟨1, 10, 1, "2025-01-01", "09:00", AppointmentStatus.CANCELADO⟩], [], [], 2⟩ =
      .ok (⟨1, 10, 1, "2025-01-01", "09:00", AppointmentStatus.AGENDADO⟩,
        ⟨[⟨1, 10, 1, "2025-01-01", "09:00", AppointmentStatus.AGENDADO⟩], [], [], 2⟩, []) :=
  ⟨rfl, rfl, rfl⟩

/-- C3 amended: a created appointment starts AGENDADO and creation leaves
stored rows untouched; an update whose payload does not set the status
field preserves every stored status; cancel only ever keeps a status or
steps it from AGENDADO to CANCELADO.  (An update payload that sets the
status field writes it verbatim, so it can revert a CANCELADO row.) -/
theorem status_transitions_amended :
    (∀ cu d db r db' n, create_appointment cu d db = .ok (r, db', n) →
      r.status = AppointmentStatus.AGENDADO ∧
      ∀ i a, db.getAppt i = some a → db'.getAppt i = some a) ∧
    (∀ aid u cu db r db' n, u.status = none →
      update_appointment aid u cu db = .ok (r, db', n) →
      ∀ i a a', db.getAppt i = some a → db'.getAppt i = some a' → a'.status = a.status) ∧
    (∀ aid cu db m db' n, cancel_appointment aid cu db = .ok (m, db', n) →
      ∀ i a a', db.getAppt i = some a → db'.getAppt i = some a' →
        (a'.status = a.status ∨
          (a.status = AppointmentStatus.AGENDADO ∧
            a'.status = AppointmentStatus.CANCELADO))) :=
  ⟨fun cu d db r db' n h => create_preserves_rows cu d db r db' n h,
   fun aid u cu db r db' n hu h => update_preserves_status aid u cu db r db' n hu h,
   fun aid cu db m db' n h => cancel_status_step aid cu db m db' n h⟩

/-- C3 amended witness: on a concrete store, canceling the single
AGENDADO appointment steps its status from AGENDADO to CANCELADO. -/
theorem status_transitions_amended_witness :
    (⟨1, 10, 1, "2025-01-01", "09:00", AppointmentStatus.CANCELADO⟩ : Appointment).status =
        (⟨1, 10, 1, "2025-01-01", "09:00", AppointmentStatus.AGENDADO⟩ : Appointment).status ∨
      ((⟨1, 10, 1, "2025-01-01", "09:00", AppointmentStatus.AGENDADO⟩ : Appointment).status =
          AppointmentStatus.AGENDADO ∧
        (⟨1, 10, 1, "2025-01-01", "09:00", AppointmentStatus.CANCELADO⟩ : Appointment).status =
          AppointmentStatus.CANCELADO) :=
  status_transitions_amended.2.2 1 ⟨5, "Bia", "b@x", UserType.PACIENTE⟩
    ⟨[⟨1, 10, 1, "2025-01-01", "09:00", AppointmentStatus.AGENDADO⟩], [], [], 2⟩
    "Agendamento cancelado com sucesso"
    ⟨[⟨1, 10, 1, "2025-01-01", "09:00", AppointmentStatus.CANCELADO⟩], [], [], 2⟩
    [] rfl 1
    ⟨1, 10, 1, "2025-01-01", "09:00", AppointmentStatus.AGENDADO⟩
    ⟨1, 10, 1, "2025-01-01", "09:00", AppointmentStatus.CANCELADO⟩
    rfl rfl

end Lunysse

namespace Lunysse

/-- C4: update never raises the CONFLICT error — every error it raises is
NOT_FOUND or FORBIDDEN — and on a concrete store holding an AGENDADO
appointment at (psychologist 1, "2025-01-01", "09:00"), rescheduling a
second appointment into that very slot succeeds, leaving two AGENDADO
rows in the same slot. -/
theorem update_no_conflict_check :
    (∀ aid u cu db e, update_appointment aid u cu db = .error e →
      (∃ s, e = ApiError.notFound s) ∨ (∃ s, e = ApiError.forbidden s)) ∧
    update_appointment 2 ⟨some "2025-01-01", some "09:00", none⟩
        ⟨5, "P", "p@x", UserType.PACIENTE⟩
        ⟨[⟨1, 10, 1, "2025-01-01", "09:00", AppointmentStatus.AGENDADO⟩,
          ⟨2, 11, 1, "2025-01-02", "10:00", AppointmentStatus.AGENDADO⟩], [], [], 3⟩ =
      .ok (⟨2, 11, 1, "2025-01-01", "09:00", AppointmentStatus.AGENDADO⟩,
        ⟨[⟨1, 10, 1, "2025-01-01", "09:00", AppointmentStatus.AGENDADO⟩,
          ⟨2, 11, 1, "2025-01-01", "09:00", AppointmentStatus.AGENDADO⟩], [], [], 3⟩, []) ∧
    (∀ b ∈ ([⟨1, 10, 1, "2025-01-01", "09:00", AppointmentStatus.AGENDADO⟩,
          ⟨2, 11, 1, "2025-01-01", "09:00", AppointmentStatus.AGENDADO⟩] : List Appointment),
      b.psychologist_id = 1 ∧ b.date = "2025-01-01" ∧ b.time = "09:00" ∧
        b.status = AppointmentStatus.AGENDADO) := by
  refine ⟨?_, rfl, by decide⟩
  intro aid u cu db e h
  cases hf : db.getAppt aid with
  | none =>
    simp only [update_appointment, hf, Except.error.injEq] at h
    exact Or.inl ⟨_, h.symm⟩
  | some a =>
    simp only [update_appointment, hf] at h
    split at h
    · simp only [Except.error.injEq] at h
      exact Or.inr ⟨_, h.symm⟩
    · cases h

/-- C4 witness: updating a missing id on an empty store raises an error
that is NOT_FOUND, not CONFLICT. -/
theorem update_no_conflict_check_witness :
    (∃ s, ApiError.notFound "Agendamento não encontrado" = ApiError.notFound s) ∨
    (∃ s, ApiError.notFound "Agendamento não encontrado" = ApiError.forbidden s) :=
  update_no_conflict_check.1 99 ⟨none, none, none⟩
    ⟨5, "P", "p@x", UserType.PACIENTE⟩ ⟨[], [], [], 1⟩
    (ApiError.notFound "Agendamento não encontrado") rfl

/-- C5: cancel errors exactly when no stored row has the requested id,
its only error is NOT_FOUND carrying HTTP status 404, its outcome never
depends on which authenticated user calls it, and on a resolvable id it
returns the static success message and re-stores the row with status
CANCELADO. -/
theorem cancel_appointment_spec (aid : Nat) (cu : User) (db : DB) :
    ((∃ e, cancel_appointment aid cu db = .error e) ↔ ∀ a ∈ db.appointments, a.id ≠ aid) ∧
    (∀ e, cancel_appointment aid cu db = .error e →
      e = ApiError.notFound "Agendamento não encontrado" ∧ e.httpStatus = 404) ∧
    (∀ cu2, cancel_appointment aid cu db = cancel_appointment aid cu2 db) ∧
    (∀ a, db.getAppt aid = some a →
      ∃ db' notifs,
        cancel_appointment aid cu db = .ok ("Agendamento cancelado com sucesso", db', notifs) ∧
        db'.getAppt aid = some { a with status := AppointmentStatus.CANCELADO }) := by
  cases hf : db.getAppt aid with
  | none =>
    have hnone : ∀ a ∈ db.appointments, a.id ≠ aid := by
      rw [DB.getAppt, List.find?_eq_none] at hf
      intro a ha
      simpa using hf a ha
    refine ⟨?_, ?_, ?_, ?_⟩
    · simp only [cancel_appointment, hf]
      constructor
      · intro _
        exact hnone
      · intro _
        exact ⟨_, rfl⟩
    · intro e he
      simp [cancel_appointment, hf] at he
      subst he
      exact ⟨rfl, rfl⟩
    · intro cu2
      rfl
    · intro a ha
      cases ha
  | some a =>
    have hid : a.id = aid := by
      simpa using List.find?_some hf
    refine ⟨?_, ?_, ?_, ?_⟩
    · constructor
      · rintro ⟨e, he⟩
        simp [cancel_appointment, hf] at he
      · intro h
        have := h a (List.mem_of_find?_eq_some hf)
        exact absurd hid this
    · intro e he
      simp [cancel_appointment, hf] at he
    · intro cu2
      rfl
    · intro a' ha'
      injection ha' with ha'
      subst ha'
      simp only [cancel_appointment, hf]
      refine ⟨_, _, rfl, ?_⟩
      show (setFirst db.appointments aid { a with status := AppointmentStatus.CANCELADO }).find?
        (fun x => x.id == aid) = some { a with status := AppointmentStatus.CANCELADO }
      rw [setFirst_find?_id db.appointments aid
        { a with status := AppointmentStatus.CANCELADO } hid aid, if_pos rfl,
        show db.appointments.find? (fun x => x.id == aid) = some a from hf]
      rfl

/-- C5 witness: canceling the stored appointment with id 1 succeeds with
the static message and re-stores it as CANCELADO. -/
theorem cancel_appointment_spec_witness :
    ∃ db' notifs,
      cancel_appointment 1 ⟨5, "Bia", "b@x", UserType.PACIENTE⟩
          ⟨[⟨1, 10, 1, "2025-01-01", "09:00", AppointmentStatus.AGENDADO⟩], [], [], 2⟩ =
        .ok ("Agendamento cancelado com sucesso", db', notifs) ∧
      db'.getAppt 1 =
        some ⟨1, 10, 1, "2025-01-01", "09:00", AppointmentStatus.CANCELADO⟩ :=
  (cancel_appointment_spec 1 ⟨5, "Bia", "b@x", UserType.PACIENTE⟩
    ⟨[⟨1, 10, 1, "2025-01-01", "09:00", AppointmentStatus.AGENDADO⟩], [], [], 2⟩).2.2.2
    ⟨1, 10, 1, "2025-01-01", "09:00", AppointmentStatus.AGENDADO⟩ rfl

end Lunysse

namespace Lunysse

/-- C6: update raises NOT_FOUND exactly when no stored row has the
requested id; on a resolved row it raises FORBIDDEN exactly when the
caller is a PSICOLOGO other than the row's psychologist; any caller not
matching that condition passes the authorization check and the update
succeeds; NOT_FOUND carries HTTP 404 and FORBIDDEN carries HTTP 403. -/
theorem update_appointment_auth_spec (aid : Nat) (u : AppointmentUpdate)
    (cu : User) (db : DB) :
    ((update_appointment aid u cu db = .error (ApiError.notFound "Agendamento não encontrado")) ↔
      ∀ a ∈ db.appointments, a.id ≠ aid) ∧
    (∀ a, db.getAppt aid = some a →
      ((update_appointment aid u cu db =
          .error (ApiError.forbidden "Sem permissão para alterar este agendamento")) ↔
        (cu.type = UserType.PSICOLOGO ∧ a.psychologist_id ≠ cu.id))) ∧
    (∀ a, db.getAppt aid = some a →
      ¬ (cu.type = UserType.PSICOLOGO ∧ a.psychologist_id ≠ cu.id) →
      ∃ r db' notifs, update_appointment aid u cu db = .ok (r, db', notifs)) ∧
    (∀ s, (ApiError.notFound s).httpStatus = 404 ∧ (ApiError.forbidden s).httpStatus = 403) := by
  cases hf : db.getAppt aid with
  | none =>
    have hnone : ∀ a ∈ db.appointments, a.id ≠ aid := by
      rw [DB.getAppt, List.find?_eq_none] at hf
      intro a ha
      simpa using hf a ha
    refine ⟨?_, ?_, ?_, ?_⟩
    · simp only [update_appointment, hf]
      constructor
      · intro _
        exact hnone
      · intro _
        trivial
    · intro a ha
      cases ha
    · intro a ha
      cases ha
    · intro s
      exact ⟨rfl, rfl⟩
  | some a =>
    have hmem : a ∈ db.appointments := List.mem_of_find?_eq_some hf
    have hid : a.id = aid := by simpa using List.find?_some hf
    by_cases hcond : cu.type = UserType.PSICOLOGO ∧ a.psychologist_id ≠ cu.id
    · refine ⟨?_, ?_, ?_, ?_⟩
      · constructor
        · intro he
          simp [update_appointment, hf, hcond.1, bne_iff_ne, hcond.2] at he
        · intro h
          exact absurd hid (h a hmem)
      · intro a' ha'
        injection ha' with ha'
        subst ha'
        constructor
        · intro _
          exact hcond
        · intro _
          simp [update_appointment, hf, hcond.1, bne_iff_ne, hcond.2]
      · intro a' ha' hn
        injection ha' with ha'
        subst ha'
        exact absurd hcond hn
      · intro s
        exact ⟨rfl, rfl⟩
    · have hcb : (cu.type == UserType.PSICOLOGO && a.psychologist_id != cu.id) = false := by
        rw [Bool.and_eq_false_iff]
        by_cases h1 : cu.type = UserType.PSICOLOGO
        · right
          have h2 : ¬ a.psychologist_id ≠ cu.id := fun h => hcond ⟨h1, h⟩
          simp [bne_iff_ne]
          omega
        · left
          simp [h1]
      refine ⟨?_, ?_, ?_, ?_⟩
      · constructor
        · intro he
          simp [update_appointment, hf, hcb] at he
        · intro h
          exact absurd hid (h a hmem)
      · intro a' ha'
        injection ha' with ha'
        subst ha'
        constructor
        · intro he
          simp [update_appointment, hf, hcb] at he
        · intro h
          exact absurd h hcond
      · intro a' ha' _
        injection ha' with ha'
        subst ha'
        simp only [update_appointment, hf, hcb]
        exact ⟨_, _, _, rfl⟩
      · intro s
        exact ⟨rfl, rfl⟩

/-- C6 witness: a PSICOLOGO with id 2 touching an appointment assigned to
psychologist 1 is rejected with the FORBIDDEN error. -/
theorem update_appointment_auth_spec_witness :
    update_appointment 1 ⟨none, none, none⟩ ⟨2, "Dr", "d@x", UserType.PSICOLOGO⟩
        ⟨[⟨1, 10, 1, "2025-01-01", "09:00", AppointmentStatus.AGENDADO⟩], [], [], 2⟩ =
      .error (ApiError.forbidden "Sem permissão para alterar este agendamento") :=
  ((update_appointment_auth_spec 1 ⟨none, none, none⟩
      ⟨2, "Dr", "d@x", UserType.PSICOLOGO⟩
      ⟨[⟨1, 10, 1, "2025-01-01", "09:00", AppointmentStatus.AGENDADO⟩], [], [], 2⟩).2.1
    ⟨1, 10, 1, "2025-01-01", "09:00", AppointmentStatus.AGENDADO⟩ rfl).mpr
    ⟨rfl, by decide⟩

/-- C7: in a successful update, date, time and status keep their
pre-update value whenever the payload leaves them unset, patient_id,
psychologist_id and id are never written at all, the updated row is what
gets stored under the id, and every other id still resolves exactly as
before. -/
theorem update_appointment_frame (aid : Nat) (u : AppointmentUpdate) (cu : User) (db : DB)
    (a r : Appointment) (db' : DB) (notifs : List Notification)
    (ha : db.getAppt aid = some a)
    (h : update_appointment aid u cu db = .ok (r, db', notifs)) :
    (u.date = none → r.date = a.date) ∧
    (u.time = none → r.time = a.time) ∧
    (u.status = none → r.status = a.status) ∧
    r.patient_id = a.patient_id ∧ r.psychologist_id = a.psychologist_id ∧ r.id = a.id ∧
    db'.getAppt aid = some r ∧
    (∀ i, i ≠ aid → db'.getAppt i = db.getAppt i) := by
  have hid : a.id = aid := by simpa using List.find?_some ha
  simp only [update_appointment, ha] at h
  split at h
  · cases h
  · simp only [Except.ok.injEq, Prod.mk.injEq] at h
    obtain ⟨hr, hdb, hn⟩ := h
    subst hr
    subst hdb
    obtain ⟨f1, f2, f3, f4, f5, f6⟩ := applyUpdate_fields u a
    have hvid : (applyUpdate u a).id = aid := by rw [f1, hid]
    refine ⟨?_, ?_, ?_, f2, f3, f1, ?_, ?_⟩
    · intro hd
      rw [f4, hd]
      rfl
    · intro ht
      rw [f5, ht]
      rfl
    · intro hs
      rw [f6, hs]
      rfl
    · show (setFirst db.appointments aid (applyUpdate u a)).find?
        (fun x => x.id == aid) = some (applyUpdate u a)
      rw [setFirst_find?_id db.appointments aid (applyUpdate u a) hvid aid, if_pos rfl,
        show db.appointments.find? (fun x => x.id == aid) = some a from ha]
      rfl
    · intro i hi
      show (setFirst db.appointments aid (applyUpdate u a)).find?
        (fun x => x.id == i) = db.getAppt i
      rw [setFirst_find?_id db.appointments aid (applyUpdate u a) hvid i, if_neg hi]
      rfl

/-- C7 witness: updating only the date of the stored appointment leaves
its time and status at their pre-update values. -/
theorem update_appointment_frame_witness :
    (⟨1, 10, 1, "2025-01-02", "09:00", AppointmentStatus.AGENDADO⟩ : Appointment).time =
        (⟨1, 10, 1, "2025-01-01", "09:00", AppointmentStatus.AGENDADO⟩ : Appointment).time ∧
    (⟨1, 10, 1, "2025-01-02", "09:00", AppointmentStatus.AGENDADO⟩ : Appointment).status =
        (⟨1, 10, 1, "2025-01-01", "09:00", AppointmentStatus.AGENDADO⟩ : Appointment).status :=
  ⟨(update_appointment_frame 1 ⟨some "2025-01-02", none, none⟩
      ⟨5, "Bia", "b@x", UserType.PACIENTE⟩
      ⟨[⟨1, 10, 1, "2025-01-01", "09:00", AppointmentStatus.AGENDADO⟩], [], [], 2⟩
      ⟨1, 10, 1, "2025-01-01", "09:00", AppointmentStatus.AGENDADO⟩
      ⟨1, 10, 1, "2025-01-02", "09:00", AppointmentStatus.AGENDADO⟩
      ⟨[⟨1, 10, 1, "2025-01-02", "09:00", AppointmentStatus.AGENDADO⟩], [], [], 2⟩
      [] rfl rfl).2.1 rfl,
   (update_appointment_frame 1 ⟨some "2025-01-02", none, none⟩
      ⟨5, "Bia", "b@x", UserType.PACIENTE⟩
      ⟨[⟨1, 10, 1, "2025-01-01", "09:00", AppointmentStatus.AGENDADO⟩], [], [], 2⟩
      ⟨1, 10, 1, "2025-01-01", "09:00", AppointmentStatus.AGENDADO⟩
      ⟨1, 10, 1, "2025-01-02", "09:00", AppointmentStatus.AGENDADO⟩
      ⟨[⟨1, 10, 1, "2025-01-02", "09:00", AppointmentStatus.AGENDADO⟩], [], [], 2⟩
      [] rfl rfl).2.2.1 rfl⟩

end Lunysse

namespace Lunysse

/-- C8: a successful update that passes the authorization check dispatches
a notification exactly when the resulting date or time differs from the
pre-update value and some Patient row carries the appointment's
patient_id; every dispatched notification is the "rescheduled" one built
from the updated date and time; when no Patient matches or nothing
changed, nothing is dispatched, the update succeeding all the same. -/
theorem update_reschedule_notification (aid : Nat) (u : AppointmentUpdate)
    (cu : User) (db : DB) (a : Appointment)
    (ha : db.getAppt aid = some a)
    (hauth : ¬ (cu.type = UserType.PSICOLOGO ∧ a.psychologist_id ≠ cu.id)) :
    ∃ r db' notifs, update_appointment aid u cu db = .ok (r, db', notifs) ∧
      ((notifs ≠ []) ↔ ((r.date ≠ a.date ∨ r.time ≠ a.time) ∧
        ∃ p ∈ db.patients, p.id = a.patient_id)) ∧
      (∀ n ∈ notifs, ∃ ce cn, n = Notification.rescheduled ce cn r.date r.time) := by
  have hcb : (cu.type == UserType.PSICOLOGO && a.psychologist_id != cu.id) = false := by
    rw [Bool.and_eq_false_iff]
    by_cases h1 : cu.type = UserType.PSICOLOGO
    · right
      have h2 : ¬ a.psychologist_id ≠ cu.id := fun h => hauth ⟨h1, h⟩
      simp [bne_iff_ne]
      omega
    · left
      simp [h1]
  have hpid : (applyUpdate u a).patient_id = a.patient_id := (applyUpdate_fields u a).2.1
  simp only [update_appointment, ha, hcb, Bool.false_eq_true, if_false]
  refine ⟨_, _, _, rfl, ?_, ?_⟩
  · simp only [DB.getPatient]
    by_cases hch : (applyUpdate u a).date ≠ a.date ∨ (applyUpdate u a).time ≠ a.time
    · have hb : ((applyUpdate u a).date != a.date || (applyUpdate u a).time != a.time) = true := by
        simpa [Bool.or_eq_true, bne_iff_ne] using hch
      rw [hb, if_pos rfl]
      split
      · rename_i p hp
        constructor
        · intro _
          refine ⟨hch, p, List.mem_of_find?_eq_some hp, ?_⟩
          have := List.find?_some hp
          rw [hpid] at this
          simpa using this
        · intro _
          simp
      · rename_i hp
        rw [List.find?_eq_none] at hp
        constructor
        · intro hne
          exact absurd rfl hne
        · rintro ⟨-, p, hpmem, hpidp⟩
          exfalso
          refine hp p hpmem ?_
          rw [hpid]
          simpa using hpidp
    · have hb : ((applyUpdate u a).date != a.date || (applyUpdate u a).time != a.time) = false := by
        push_neg at hch
        simp [Bool.or_eq_false_iff, bne_iff_ne]
        tauto
      rw [hb]
      simp only [Bool.false_eq_true, if_false]
      constructor
      · intro hne
        exact absurd rfl hne
      · rintro ⟨hch2, -⟩
        exact absurd hch2 hch
  · intro n hn
    simp only [DB.getPatient] at hn
    split at hn
    · split at hn
      · rename_i p hp
        simp only [List.mem_singleton] at hn
        exact ⟨p.email, p.name, hn⟩
      · cases hn
    · cases hn

/-- C8 witness: on a store holding the matching Patient, changing the
date dispatches exactly the "rescheduled" notification. -/
theorem update_reschedule_notification_witness :
    ∃ r db' notifs,
      update_appointment 1 ⟨some "2025-01-02", none, none⟩
          ⟨5, "Bia", "b@x", UserType.PACIENTE⟩
          ⟨[⟨1, 10, 1, "2025-01-01", "09:00", AppointmentStatus.AGENDADO⟩],
            [⟨10, "Bia", "b@x"⟩], [], 2⟩ = .ok (r, db', notifs) ∧
      ((notifs ≠ []) ↔ ((r.date ≠ "2025-01-01" ∨ r.time ≠ "09:00") ∧
        ∃ p ∈ ([⟨10, "Bia", "b@x"⟩] : List Patient), p.id = 10)) ∧
      (∀ n ∈ notifs, ∃ ce cn, n = Notification.rescheduled ce cn r.date r.time) :=
  update_reschedule_notification 1 ⟨some "2025-01-02", none, none⟩
    ⟨5, "Bia", "b@x", UserType.PACIENTE⟩
    ⟨[⟨1, 10, 1, "2025-01-01", "09:00", AppointmentStatus.AGENDADO⟩],
      [⟨10, "Bia", "b@x"⟩], [], 2⟩
    ⟨1, 10, 1, "2025-01-01", "09:00", AppointmentStatus.AGENDADO⟩
    rfl (by decide)

/-- C9: canceling a stored AGENDADO appointment (whose time is one of the
fixed slot labels, over a store with unique ids and no other AGENDADO
row in its slot) succeeds, after which its time is listed by
available-slots for its date and psychologist and a create for that same
slot succeeds rather than raising CONFLICT. -/
theorem cancel_frees_slot (aid : Nat) (cu : User) (db : DB) (a : Appointment)
    (ha : db.getAppt aid = some a)
    (hs : a.status = AppointmentStatus.AGENDADO)
    (ht : a.time ∈ all_slots)
    (hnd : (db.appointments.map (fun x => x.id)).Nodup)
    (hfree : ∀ b ∈ db.appointments, b.id ≠ aid →
      ¬ (b.psychologist_id = a.psychologist_id ∧ b.date = a.date ∧ b.time = a.time ∧
        b.status = AppointmentStatus.AGENDADO)) :
    ∃ m db' notifs, cancel_appointment aid cu db = .ok (m, db', notifs) ∧
      a.time ∈ get_available_slots a.date a.psychologist_id db' ∧
      (∀ cu2 pid, ∃ r db2 notifs2,
        create_appointment cu2 ⟨pid, a.psychologist_id, a.date, a.time⟩ db' =
          .ok (r, db2, notifs2)) := by
  have hocc : ∀ b ∈ setFirst db.appointments aid
      { a with status := AppointmentStatus.CANCELADO },
      ¬ (b.psychologist_id = a.psychologist_id ∧ b.date = a.date ∧ b.time = a.time ∧
        b.status = AppointmentStatus.AGENDADO) := by
    intro b hb
    rcases mem_setFirst db.appointments aid _ b hnd hb with hbv | ⟨hbmem, hbid⟩
    · subst hbv
      rintro ⟨-, -, -, hst⟩
      cases hst
    · exact hfree b hbmem hbid
  simp only [cancel_appointment, ha]
  refine ⟨_, _, _, rfl, ?_, ?_⟩
  · rw [mem_available_slots]
    refine ⟨ht, ?_⟩
    rintro ⟨b, hb, h1, h2, h3, h4⟩
    exact hocc b hb ⟨h2, h1, h4, h3⟩
  · intro cu2 pid
    have hfnone : (setFirst db.appointments aid
        { a with status := AppointmentStatus.CANCELADO }).find? (fun b =>
          b.psychologist_id == a.psychologist_id &&
          b.date == a.date &&
          b.time == a.time &&
          b.status == AppointmentStatus.AGENDADO) = none := by
      rw [List.find?_eq_none]
      intro b hb
      have := hocc b hb
      simp only [Bool.and_eq_true, beq_iff_eq]
      intro hcontra
      exact this ⟨hcontra.1.1.1, hcontra.1.1.2, hcontra.1.2, hcontra.2⟩
    simp only [create_appointment, hfnone]
    exact ⟨_, _, _, rfl⟩

/-- C9 witness: canceling the only appointment occupying the 09:00 slot
makes 09:00 available again and lets a fresh create for the slot go
through. -/
theorem cancel_frees_slot_witness :
    ∃ m db' notifs,
      cancel_appointment 1 ⟨5, "Bia", "b@x", UserType.PACIENTE⟩
          ⟨[⟨1, 10, 1, "2025-01-01", "09:00", AppointmentStatus.AGENDADO⟩], [], [], 2⟩ =
        .ok (m, db', notifs) ∧
      "09:00" ∈ get_available_slots "2025-01-01" 1 db' ∧
      (∀ cu2 pid, ∃ r db2 notifs2,
        create_appointment cu2 ⟨pid, 1, "2025-01-01", "09:00"⟩ db' =
          .ok (r, db2, notifs2)) :=
  cancel_frees_slot 1 ⟨5, "Bia", "b@x", UserType.PACIENTE⟩
    ⟨[⟨1, 10, 1, "2025-01-01", "09:00", AppointmentStatus.AGENDADO⟩], [], [], 2⟩
    ⟨1, 10, 1, "2025-01-01", "09:00", AppointmentStatus.AGENDADO⟩
    rfl rfl (by decide) (by decide) (by decide)

/-- C10: create ignores the authenticated caller entirely: any two
callers submitting the same payload against the same store obtain the
identical result — any authenticated user may create an appointment for
any patient_id and psychologist_id. -/
theorem create_caller_independent (cu1 cu2 : User) (d : AppointmentCreate) (db : DB) :
    create_appointment cu1 d db = create_appointment cu2 d db := rfl

end Lunysse
